import Mathlib

/-!
Verification of the ml2p core utilities (src/ml2p/core.py) against their
specification.  Python strings are modelled as lists of characters (or as
Lean strings where convenient), Python dictionaries carrying configuration
as association lists, and the effectful prediction pipeline as explicit
state passing over a state that tracks the clock, the drawn UUIDs and the
object-store writes.  Exceptions are modelled with Except.
-/

namespace ML2P

/-! ### Python string primitives used by S3URL -/

/-- A character equal to the slash character, as a Bool predicate.
Used to model the Python operations str.lstrip("/") and str.strip("/"). -/
def isSlash (c : Char) : Bool := c == '/'

/-- Model of Python str.lstrip("/"): drop every leading slash. -/
def lstripSlash (l : List Char) : List Char := l.dropWhile isSlash

/-- Model of Python str.rstrip("/"): drop every trailing slash. -/
def rstripSlash : List Char → List Char
  | [] => []
  | c :: t =>
    match rstripSlash t with
    | [] => if isSlash c then [] else [c]
    | r => c :: r

/-- Model of Python str.strip("/"): drop leading and trailing slashes. -/
def stripSlash (l : List Char) : List Char := rstripSlash (lstripSlash l)

/-! ### Model of urllib.parse.urlparse (netloc and path components)

The source constructs `urllib.parse.urlparse(s3folder)` and only ever reads
`.netloc` and `.path`.  The model below follows CPython urlsplit: an initial
`scheme:` is recognised when the characters before the first colon form a
valid scheme (a letter followed by letters, digits, `+`, `-` or `.`); after
the scheme, a leading `//` introduces the netloc, which extends to the first
`/`, `?` or `#`; the path is what follows, cut at the first `?` or `#`.
Parameter splitting (`;`) is omitted: CPython only applies it for schemes in
its uses_params list, which does not include s3. -/

def notColon (c : Char) : Bool := c != ':'

def notNetlocEnd (c : Char) : Bool := c != '/' && c != '?' && c != '#'

def notQueryStart (c : Char) : Bool := c != '?' && c != '#'

def isSchemeChar (c : Char) : Bool :=
  c.isAlpha || c.isDigit || c == '+' || c == '-' || c == '.'

def validScheme : List Char → Bool
  | [] => false
  | c :: cs => c.isAlpha && cs.all isSchemeChar

/-- The URL with a leading valid `scheme:` removed (left alone when the
characters before the first colon do not form a valid scheme). -/
def schemeRest (url : List Char) : List Char :=
  match url.dropWhile notColon with
  | ':' :: tail => if validScheme (url.takeWhile notColon) then tail else url
  | _ => url

def urlparseNetlocPath (url : List Char) : List Char × List Char :=
  match schemeRest url with
  | '/' :: '/' :: r =>
      (r.takeWhile notNetlocEnd, (r.dropWhile notNetlocEnd).takeWhile notQueryStart)
  | rest => ([], rest.takeWhile notQueryStart)

/-! ### S3URL (src/ml2p/core.py lines 22-37) -/

/-- The state stored by `S3URL.__init__`: the netloc of the parsed URL and
the parsed path stripped of leading and trailing slashes (`_s3root`). -/
structure S3URL where
  netloc : List Char
  s3root : List Char
deriving DecidableEq

/-- Constructor `S3URL(s3folder)`: parse the URL and strip slashes from its path. -/
def S3URL.ofString (s3folder : String) : S3URL :=
  { netloc := (urlparseNetlocPath s3folder.data).1,
    s3root := stripSlash (urlparseNetlocPath s3folder.data).2 }

/-- Method `S3URL.bucket`: the netloc component of the parsed URL. -/
def S3URL.bucket (u : S3URL) : List Char := u.netloc

/-- Method `S3URL.path(suffix)`: append the stored root, a slash and the
suffix stripped of leading slashes, then strip leading slashes again. -/
def S3URL.path (u : S3URL) (suffix : List Char) : List Char :=
  lstripSlash (u.s3root ++ '/' :: lstripSlash suffix)

/-- Method `S3URL.url(suffix)`: render the location as an s3 URL string
from the stored netloc and `path(suffix)`. -/
def S3URL.url (u : S3URL) (suffix : List Char) : String :=
  String.mk (String.data "s3://" ++ u.netloc ++ '/' :: u.path suffix)

/-! ### SageMakerEnv (src/ml2p/core.py lines 40-109) -/

inductive SageMakerEnvType where
  | TRAIN
  | SERVE
deriving DecidableEq

/-- A string-to-string mapping such as `os.environ` or the decoded
`ML2P_ENV` sub-mapping of the hyperparameters file, as an association
list looked up with `List.lookup`. -/
abbrev Environ := List (String × String)

/-- The attributes set by `SageMakerEnv.__init__`. -/
structure SageMakerEnv where
  env_type : SageMakerEnvType
  training_job_name : Option String
  model_version : Option String
  record_invokes : Option Bool
  project : Option String
  model_cls : Option String
  s3 : Option S3URL
deriving DecidableEq

/-- Constructor `SageMakerEnv.__init__(ml_folder)`.  Here `osEnviron` models `os.environ`;
`ml2pEnv` models `self.hyperparameters().get("ML2P_ENV", {})`, the mapping
decoded from the hyperparameters file in the training branch.  The Python
attribute `record_invokes` is `None` in the training branch and a `bool` in
the serving branch, modelled as `Option Bool`. -/
def SageMakerEnv.init (osEnviron : Environ) (ml2pEnv : Environ) : SageMakerEnv :=
  if (osEnviron.lookup "TRAINING_JOB_NAME").isSome then
    { env_type := .TRAIN,
      training_job_name := osEnviron.lookup "TRAINING_JOB_NAME",
      model_version := none,
      record_invokes := none,
      project := ml2pEnv.lookup "ML2P_PROJECT",
      model_cls := ml2pEnv.lookup "ML2P_MODEL_CLS",
      s3 := (ml2pEnv.lookup "ML2P_S3_URL").map S3URL.ofString }
  else
    { env_type := .SERVE,
      training_job_name := none,
      model_version := osEnviron.lookup "ML2P_MODEL_VERSION",
      record_invokes :=
        some (((osEnviron.lookup "ML2P_RECORD_INVOKES").getD "false") == "true"),
      project := osEnviron.lookup "ML2P_PROJECT",
      model_cls := osEnviron.lookup "ML2P_MODEL_CLS",
      s3 := (osEnviron.lookup "ML2P_S3_URL").map S3URL.ofString }

/-- Python truthiness of the `record_invokes` attribute (`None` is falsy). -/
def pyTruthy : Option Bool → Bool
  | none => false
  | some b => b

/-- Python `"{}".format(x)` for an optional string: `None` renders as "None". -/
def pyStr : Option String → String
  | none => "None"
  | some s => s

/-! ### ModelPredictor (src/ml2p/core.py lines 182-341)

The prediction pipeline is effectful: `datetime.datetime.utcnow()`,
`uuid.uuid4()` and `boto3 put_object` calls.  The embedding passes a
`PState` explicitly: `clock` counts the `utcnow` calls made so far (the
n-th call returns the oracle value `now n`), `uuidCount` counts the
`uuid4` calls, `metadataCalls` counts the calls to `.metadata()`, and
`writes` logs every object-store write in order.  Python exceptions are
modelled with `Except PyErr`. -/

/-- The Python exceptions raised by the modelled code paths. -/
inductive PyErr where
  | notImplementedError (msg : String)
  | attributeError (msg : String)
deriving DecidableEq

/-- One `put_object(Bucket=..., Key=..., Body=...)` call.  `β` is the type
of serialized bodies. -/
structure S3Write (β : Type) where
  bucket : List Char
  key : List Char
  body : β
deriving DecidableEq

/-- The effect state threaded through predictor operations. -/
structure PState (β : Type) where
  clock : Nat
  uuidCount : Nat
  metadataCalls : Nat
  writes : List (S3Write β)
deriving DecidableEq

/-- The dictionary returned by `ModelPredictor.metadata`. `τ` is the type
of timestamp values (`datetime.datetime.utcnow()` results). -/
structure Metadata (τ : Type) where
  model_version : Option String
  ml2p_version : String
  timestamp : τ
deriving DecidableEq

/-- The dictionary `{"metadata": ..., "result": ...}` returned by `invoke`. -/
structure Prediction (τ ρ : Type) where
  metadata : Metadata τ
  result : ρ
deriving DecidableEq

/-- The dictionary `{"input": datum, "result": prediction}` serialized by
`record_invoke`. -/
structure InvokeRecord (ι τ ρ : Type) where
  input : ι
  result : Prediction τ ρ
deriving DecidableEq

/-- The dictionary `{"predictions": [...]}` returned by `batch_invoke`. -/
structure BatchResponse (τ ρ : Type) where
  predictions : List (Prediction τ ρ)
deriving DecidableEq

/-- A `ModelPredictor` instance: its environment, the framework version
string imported as `ml2p_version`, the oracles for `utcnow`, `.isoformat()`
rendering, `uuid4` and JSON-serialization, and the `result` method (the
base class raises NotImplementedError; subclasses override it). -/
structure ModelPredictor (ι ρ τ β : Type) where
  env : SageMakerEnv
  ml2p_version : String
  now : Nat → τ
  isoformat : τ → String
  uuid4 : Nat → String
  serialize : InvokeRecord ι τ ρ → β
  result : ι → Except PyErr ρ

/-- Model of `datetime.datetime.utcnow()`: return the oracle value for the current
clock position and advance the clock. -/
def ModelPredictor.utcnow (p : ModelPredictor ι ρ τ β) (s : PState β) :
    τ × PState β :=
  (p.now s.clock, { s with clock := s.clock + 1 })

/-- Method `ModelPredictor.metadata` (lines 229-245): model version, framework
version and the current UTC timestamp. -/
def ModelPredictor.metadata (p : ModelPredictor ι ρ τ β) (s : PState β) :
    Metadata τ × PState β :=
  let ts := p.utcnow s
  ({ model_version := p.env.model_version,
     ml2p_version := p.ml2p_version,
     timestamp := ts.1 },
   { ts.2 with metadataCalls := ts.2.metadataCalls + 1 })

/-- The base class `ModelPredictor.result` (lines 247-256): always raises
NotImplementedError. -/
def baseResult (ι ρ : Type) : ι → Except PyErr ρ :=
  fun _ => .error (.notImplementedError "Sub-classes should implement .result(...)")

/-- Method `ModelPredictor.record_invoke_id` (lines 295-319): the default ordered
identity mapping `{"ts": utcnow().isoformat(), "uuid": str(uuid4())}`. -/
def ModelPredictor.record_invoke_id (p : ModelPredictor ι ρ τ β) (s : PState β) :
    List (String × String) × PState β :=
  let ts := p.utcnow s
  ([("ts", p.isoformat ts.1), ("uuid", p.uuid4 ts.2.uuidCount)],
   { ts.2 with uuidCount := ts.2.uuidCount + 1 })

/-- Method `ModelPredictor.record_invoke` (lines 321-341): build the record
filename by joining the identity entries as `key-value` pairs with `--`,
serialize `{"input": datum, "result": prediction}` and put it to the bucket
under `self.env.s3.path("/predictions/<model_version>/<filename>")`.
Accessing `.path` on an absent `env.s3` raises an AttributeError. -/
def ModelPredictor.record_invoke (p : ModelPredictor ι ρ τ β) (datum : ι)
    (prediction : Prediction τ ρ) (s : PState β) : Except PyErr (PState β) :=
  let idp := p.record_invoke_id s
  let record_filename :=
    String.intercalate "--" (idp.1.map (fun kv => kv.1 ++ "-" ++ kv.2)) ++ ".json"
  let record_bytes := p.serialize { input := datum, result := prediction }
  match p.env.s3 with
  | none => .error (.attributeError "NoneType object has no attribute path")
  | some s3u =>
    let s3_key := s3u.path
      ("/predictions/" ++ pyStr p.env.model_version ++ "/" ++ record_filename).data
    .ok { idp.2 with
          writes := idp.2.writes ++ [{ bucket := s3u.bucket, key := s3_key,
                                       body := record_bytes }] }

/-- Method `ModelPredictor.invoke` (lines 210-227): build the prediction from
`metadata()` and `result(data)`; if `env.record_invokes` is truthy, record
the invocation before returning. -/
def ModelPredictor.invoke (p : ModelPredictor ι ρ τ β) (data : ι) (s : PState β) :
    Except PyErr (Prediction τ ρ) × PState β :=
  let md := p.metadata s
  match p.result data with
  | .error e => (.error e, md.2)
  | .ok r =>
    let prediction : Prediction τ ρ := { metadata := md.1, result := r }
    if pyTruthy p.env.record_invokes then
      match p.record_invoke data prediction md.2 with
      | .error e => (.error e, md.2)
      | .ok s2 => (.ok prediction, s2)
    else
      (.ok prediction, md.2)

/-- Method `ModelPredictor.batch_result` (lines 281-293): the default list
comprehension `[self.result(datum) for datum in data]`, evaluated left to
right, where an exception from any element aborts the whole call. -/
def ModelPredictor.batch_result (p : ModelPredictor ι ρ τ β) :
    List ι → Except PyErr (List ρ)
  | [] => .ok []
  | d :: rest =>
    match p.result d with
    | .error e => .error e
    | .ok r =>
      match p.batch_result rest with
      | .error e => .error e
      | .ok rs => .ok (r :: rs)

/-- The `for datum, prediction in zip(data, predictions)` recording loop of
`batch_invoke`, aborting at the first exception. -/
def recordAll (p : ModelPredictor ι ρ τ β) :
    List (ι × Prediction τ ρ) → PState β → Except PyErr (PState β)
  | [], s => .ok s
  | (d, pr) :: rest, s =>
    match p.record_invoke d pr s with
    | .error e => .error e
    | .ok s1 => recordAll p rest s1

/-- Method `ModelPredictor.batch_invoke` (lines 258-279): compute `metadata()`
once, compute `batch_result(data)`, pair every result with the shared
metadata, optionally record each pair, and wrap in `{"predictions": ...}`. -/
def ModelPredictor.batch_invoke (p : ModelPredictor ι ρ τ β) (data : List ι)
    (s : PState β) : Except PyErr (BatchResponse τ ρ) × PState β :=
  let md := p.metadata s
  match p.batch_result data with
  | .error e => (.error e, md.2)
  | .ok results =>
    let predictions := results.map (fun r => Prediction.mk md.1 r)
    if pyTruthy p.env.record_invokes then
      match recordAll p (data.zip predictions) md.2 with
      | .error e => (.error e, md.2)
      | .ok s2 => (.ok { predictions := predictions }, s2)
    else
      (.ok { predictions := predictions }, md.2)

/-! ### Claims about SageMakerEnv construction -/

/-- Claim C4: the constructed environment is in Training mode if and only
if the TRAINING_JOB_NAME variable is present in the process environment,
and in Serving mode if and only if it is absent; the two modes are
mutually exclusive and cover all cases. -/
theorem env_mode_total (osE ml2pE : Environ) :
    ((SageMakerEnv.init osE ml2pE).env_type = .TRAIN ↔
      (osE.lookup "TRAINING_JOB_NAME").isSome) ∧
    ((SageMakerEnv.init osE ml2pE).env_type = .SERVE ↔
      ¬ (osE.lookup "TRAINING_JOB_NAME").isSome) ∧
    ((SageMakerEnv.init osE ml2pE).env_type = .TRAIN ∨
      (SageMakerEnv.init osE ml2pE).env_type = .SERVE) := by
  by_cases h : (osE.lookup "TRAINING_JOB_NAME").isSome <;>
    simp [SageMakerEnv.init, h]

/-- Instantiation of C4 at a concrete training-mode process environment. -/
theorem env_mode_total_witness :
    ((SageMakerEnv.init [("TRAINING_JOB_NAME", "job-1")] []).env_type = .TRAIN ↔
      (([("TRAINING_JOB_NAME", "job-1")] : Environ).lookup "TRAINING_JOB_NAME").isSome) ∧
    ((SageMakerEnv.init [("TRAINING_JOB_NAME", "job-1")] []).env_type = .SERVE ↔
      ¬ (([("TRAINING_JOB_NAME", "job-1")] : Environ).lookup "TRAINING_JOB_NAME").isSome) ∧
    ((SageMakerEnv.init [("TRAINING_JOB_NAME", "job-1")] []).env_type = .TRAIN ∨
      (SageMakerEnv.init [("TRAINING_JOB_NAME", "job-1")] []).env_type = .SERVE) :=
  env_mode_total [("TRAINING_JOB_NAME", "job-1")] []

/-- Claim C8: in Training mode `model_version` is None while
`training_job_name` is set; in Serving mode `training_job_name` is None.
The embedding is immutable, matching the absence of any later assignment
to these attributes in the source. -/
theorem env_exclusive_fields (osE ml2pE : Environ) :
    ((SageMakerEnv.init osE ml2pE).env_type = .TRAIN →
      (SageMakerEnv.init osE ml2pE).model_version = none ∧
      (SageMakerEnv.init osE ml2pE).training_job_name.isSome) ∧
    ((SageMakerEnv.init osE ml2pE).env_type = .SERVE →
      (SageMakerEnv.init osE ml2pE).training_job_name = none) := by
  by_cases h : (osE.lookup "TRAINING_JOB_NAME").isSome <;>
    simp [SageMakerEnv.init, h]

/-- Instantiation of C8 at a concrete training-mode process environment. -/
theorem env_exclusive_fields_witness :
    ((SageMakerEnv.init [("TRAINING_JOB_NAME", "job-2")] []).env_type = .TRAIN →
      (SageMakerEnv.init [("TRAINING_JOB_NAME", "job-2")] []).model_version = none ∧
      (SageMakerEnv.init [("TRAINING_JOB_NAME", "job-2")] []).training_job_name.isSome) ∧
    ((SageMakerEnv.init [("TRAINING_JOB_NAME", "job-2")] []).env_type = .SERVE →
      (SageMakerEnv.init [("TRAINING_JOB_NAME", "job-2")] []).training_job_name = none) :=
  env_exclusive_fields [("TRAINING_JOB_NAME", "job-2")] []

/-- Claim C9: in Training mode `record_invokes` is None (not the boolean
False); in Serving mode it is the boolean that is true exactly when
ML2P_RECORD_INVOKES equals the literal string "true". -/
theorem env_record_invokes_mode (osE ml2pE : Environ) :
    ((SageMakerEnv.init osE ml2pE).env_type = .TRAIN →
      (SageMakerEnv.init osE ml2pE).record_invokes = none) ∧
    ((SageMakerEnv.init osE ml2pE).env_type = .SERVE →
      (SageMakerEnv.init osE ml2pE).record_invokes =
        some (((osE.lookup "ML2P_RECORD_INVOKES").getD "false") == "true") ∧
      ((SageMakerEnv.init osE ml2pE).record_invokes = some true ↔
        osE.lookup "ML2P_RECORD_INVOKES" = some "true")) := by
  by_cases h : (osE.lookup "TRAINING_JOB_NAME").isSome <;>
    simp [SageMakerEnv.init, h]
  cases hv : osE.lookup "ML2P_RECORD_INVOKES" <;> simp [hv]

/-- Instantiation of C9 at a concrete serving-mode process environment with
the recording flag set to "true". -/
theorem env_record_invokes_mode_witness :
    ((SageMakerEnv.init [("ML2P_RECORD_INVOKES", "true")] []).env_type = .TRAIN →
      (SageMakerEnv.init [("ML2P_RECORD_INVOKES", "true")] []).record_invokes = none) ∧
    ((SageMakerEnv.init [("ML2P_RECORD_INVOKES", "true")] []).env_type = .SERVE →
      (SageMakerEnv.init [("ML2P_RECORD_INVOKES", "true")] []).record_invokes =
        some (((([("ML2P_RECORD_INVOKES", "true")] : Environ).lookup
          "ML2P_RECORD_INVOKES").getD "false") == "true") ∧
      ((SageMakerEnv.init [("ML2P_RECORD_INVOKES", "true")] []).record_invokes = some true ↔
        ([("ML2P_RECORD_INVOKES", "true")] : Environ).lookup "ML2P_RECORD_INVOKES" =
          some "true")) :=
  env_record_invokes_mode [("ML2P_RECORD_INVOKES", "true")] []

/-! ### Helper lemmas about the prediction pipeline -/

/-- The default `batch_result` maps an overridden, non-throwing `result`
over the inputs in order. -/
theorem batch_result_map (p : ModelPredictor ι ρ τ β) (f : ι → ρ)
    (hres : p.result = fun x => Except.ok (f x)) (data : List ι) :
    p.batch_result data = .ok (data.map f) := by
  induction data with
  | nil => simp [ModelPredictor.batch_result]
  | cons d rest ih => simp [ModelPredictor.batch_result, hres, ih]

/-- The single object-store write performed by `record_invoke` started at
state `s` against the S3 location `u`. -/
def recordWrite (p : ModelPredictor ι ρ τ β) (u : S3URL) (datum : ι)
    (prediction : Prediction τ ρ) (s : PState β) : S3Write β :=
  { bucket := u.bucket,
    key := u.path ("/predictions/" ++ pyStr p.env.model_version ++ "/" ++
      (String.intercalate "--"
        ([("ts", p.isoformat (p.now s.clock)), ("uuid", p.uuid4 s.uuidCount)].map
          (fun kv => kv.1 ++ "-" ++ kv.2)) ++ ".json")).data,
    body := p.serialize { input := datum, result := prediction } }

/-- When the environment carries an S3 location, `record_invoke` succeeds,
advances the clock and the UUID counter, leaves the metadata-call counter
unchanged and appends exactly one write. -/
theorem record_invoke_eq (p : ModelPredictor ι ρ τ β) (u : S3URL)
    (hs3 : p.env.s3 = some u) (d : ι) (pr : Prediction τ ρ) (s : PState β) :
    p.record_invoke d pr s =
      .ok { clock := s.clock + 1, uuidCount := s.uuidCount + 1,
            metadataCalls := s.metadataCalls,
            writes := s.writes ++ [recordWrite p u d pr s] } := by
  simp [ModelPredictor.record_invoke, ModelPredictor.record_invoke_id,
        ModelPredictor.utcnow, recordWrite, hs3]

/-- When the environment carries an S3 location, the batch recording loop
succeeds and never touches the metadata-call counter. -/
theorem recordAll_ok (p : ModelPredictor ι ρ τ β) (u : S3URL)
    (hs3 : p.env.s3 = some u) (l : List (ι × Prediction τ ρ)) :
    ∀ s : PState β, ∃ s2, recordAll p l s = .ok s2 ∧
      s2.metadataCalls = s.metadataCalls := by
  induction l with
  | nil => exact fun s => ⟨s, rfl, rfl⟩
  | cons hd tl ih =>
    intro s
    obtain ⟨s2, h2, hm⟩ :=
      ih { clock := s.clock + 1, uuidCount := s.uuidCount + 1,
           metadataCalls := s.metadataCalls,
           writes := s.writes ++ [recordWrite p u hd.1 hd.2 s] }
    refine ⟨s2, ?_, hm⟩
    simpa [recordAll, record_invoke_eq p u hs3] using h2

/-! ### Claims about the prediction pipeline -/

/-- Claim C2: with the recording flag not enabled and `result` overridden,
`invoke(data)` returns exactly the prediction built from the metadata
(environment model version, framework version, current UTC timestamp) and
`result(data)`, and performs zero object-store writes. -/
theorem invoke_no_record_spec (p : ModelPredictor ι ρ τ β) (f : ι → ρ)
    (hres : p.result = fun x => Except.ok (f x))
    (hrec : pyTruthy p.env.record_invokes = false)
    (data : ι) (s : PState β) :
    p.invoke data s =
      (.ok { metadata := { model_version := p.env.model_version,
                           ml2p_version := p.ml2p_version,
                           timestamp := p.now s.clock },
             result := f data },
       { s with clock := s.clock + 1, metadataCalls := s.metadataCalls + 1 }) := by
  simp [ModelPredictor.invoke, ModelPredictor.metadata, ModelPredictor.utcnow,
        hres, hrec]

/-- A concrete serving-mode environment with the recording flag unset. -/
def envNoRecord : SageMakerEnv :=
  SageMakerEnv.init [("ML2P_MODEL_VERSION", "test-model-1.2.3")] []

/-- A concrete predictor over `envNoRecord` whose overridden `result`
returns its input plus one. -/
def predNoRecord : ModelPredictor Nat Nat Nat (InvokeRecord Nat Nat Nat) :=
  { env := envNoRecord, ml2p_version := "2022.3.1",
    now := fun n => n, isoformat := fun t => toString t,
    uuid4 := fun n => toString n,
    serialize := fun r => r, result := fun x => .ok (x + 1) }

/-- Instantiation of C2: the concrete predictor invoked on input 7 from
the initial state returns the exact prediction and writes nothing. -/
theorem invoke_no_record_witness :
    pyTruthy predNoRecord.env.record_invokes = false ∧
    predNoRecord.invoke 7 { clock := 0, uuidCount := 0, metadataCalls := 0, writes := [] } =
      (.ok { metadata := { model_version := some "test-model-1.2.3",
                           ml2p_version := "2022.3.1",
                           timestamp := 0 },
             result := 8 },
       { clock := 1, uuidCount := 0, metadataCalls := 1, writes := [] }) :=
  ⟨rfl, invoke_no_record_spec predNoRecord (fun x => x + 1) rfl rfl 7
    { clock := 0, uuidCount := 0, metadataCalls := 0, writes := [] }⟩

/-- Claim C5: `invoke` on a base predictor whose `result` is not overridden
propagates a NotImplementedError with exactly the message
"Sub-classes should implement .result(...)", and returns no prediction. -/
theorem invoke_base_not_implemented (p : ModelPredictor ι ρ τ β)
    (hres : p.result = baseResult ι ρ) (data : ι) (s : PState β) :
    (p.invoke data s).1 =
      .error (.notImplementedError "Sub-classes should implement .result(...)") := by
  simp [ModelPredictor.invoke, baseResult, hres]

/-- A concrete base predictor (no `result` override). -/
def predBase : ModelPredictor Nat Nat Nat (InvokeRecord Nat Nat Nat) :=
  { env := envNoRecord, ml2p_version := "2022.3.1",
    now := fun n => n, isoformat := fun t => toString t,
    uuid4 := fun n => toString n,
    serialize := fun r => r, result := baseResult Nat Nat }

/-- Instantiation of C5 at the concrete base predictor and empty input. -/
theorem invoke_base_witness :
    (predBase.invoke 0 { clock := 0, uuidCount := 0, metadataCalls := 0, writes := [] }).1 =
      .error (.notImplementedError "Sub-classes should implement .result(...)") :=
  invoke_base_not_implemented predBase rfl 0
    { clock := 0, uuidCount := 0, metadataCalls := 0, writes := [] }

/-- Claim C3: with recording enabled, a recorded invocation performs
exactly one object-store write; its body is the serialization of
`{"input": datum, "result": prediction}` and its key is the S3 prefix
joined (via `S3URL.path`) with `predictions/<model_version>/<id>.json`,
where the identity entries are rendered as `key-value` pairs joined by
`--` (by default a timestamp entry and a UUID entry). -/
theorem invoke_record_spec (p : ModelPredictor ι ρ τ β) (f : ι → ρ) (u : S3URL)
    (hres : p.result = fun x => Except.ok (f x))
    (hrec : pyTruthy p.env.record_invokes = true)
    (hs3 : p.env.s3 = some u) (data : ι) (s : PState β) :
    p.invoke data s =
      (.ok { metadata := { model_version := p.env.model_version,
                           ml2p_version := p.ml2p_version,
                           timestamp := p.now s.clock },
             result := f data },
       { clock := s.clock + 1 + 1, uuidCount := s.uuidCount + 1,
         metadataCalls := s.metadataCalls + 1,
         writes := s.writes ++
           [{ bucket := u.bucket,
              key := u.path ("/predictions/" ++ pyStr p.env.model_version ++ "/" ++
                (String.intercalate "--"
                  ([("ts", p.isoformat (p.now (s.clock + 1))),
                    ("uuid", p.uuid4 s.uuidCount)].map
                    (fun kv => kv.1 ++ "-" ++ kv.2)) ++ ".json")).data,
              body := p.serialize
                { input := data,
                  result := { metadata := { model_version := p.env.model_version,
                                            ml2p_version := p.ml2p_version,
                                            timestamp := p.now s.clock },
                              result := f data } } }] }) := by
  simp [ModelPredictor.invoke, ModelPredictor.metadata, ModelPredictor.utcnow,
        ModelPredictor.record_invoke, ModelPredictor.record_invoke_id,
        hres, hrec, hs3]

/-- A concrete serving-mode environment with recording enabled and an S3
location configured. -/
def envRecord : SageMakerEnv :=
  SageMakerEnv.init
    [("ML2P_MODEL_VERSION", "test-model-1.2.3"),
     ("ML2P_RECORD_INVOKES", "true"),
     ("ML2P_S3_URL", "s3://my-bucket/models")] []

/-- A concrete predictor over `envRecord`; `serialize` is the identity so
the recorded body is the record itself. -/
def predRecord : ModelPredictor Nat Nat Nat (InvokeRecord Nat Nat Nat) :=
  { env := envRecord, ml2p_version := "2022.3.1",
    now := fun n => n, isoformat := fun t => toString t,
    uuid4 := fun n => toString n,
    serialize := fun r => r, result := fun x => .ok (x * 2) }

/-- Instantiation of C3: the concrete recording predictor invoked on input
3 performs exactly one write with the expected key and body. -/
theorem invoke_record_witness :
    pyTruthy predRecord.env.record_invokes = true ∧
    predRecord.env.s3 = some (S3URL.ofString "s3://my-bucket/models") ∧
    predRecord.invoke 3 { clock := 0, uuidCount := 0, metadataCalls := 0, writes := [] } =
      (.ok { metadata := { model_version := some "test-model-1.2.3",
                           ml2p_version := "2022.3.1",
                           timestamp := 0 },
             result := 6 },
       { clock := 2, uuidCount := 1, metadataCalls := 1,
         writes :=
           [{ bucket := (S3URL.ofString "s3://my-bucket/models").bucket,
              key := (S3URL.ofString "s3://my-bucket/models").path
                ("/predictions/test-model-1.2.3/ts-1--uuid-0.json").data,
              body := { input := 3,
                        result := { metadata :=
                                      { model_version := some "test-model-1.2.3",
                                        ml2p_version := "2022.3.1",
                                        timestamp := 0 },
                                    result := 6 } } }] }) :=
  ⟨rfl, rfl,
    invoke_record_spec predRecord (fun x => x * 2)
      (S3URL.ofString "s3://my-bucket/models") rfl rfl rfl 3
      { clock := 0, uuidCount := 0, metadataCalls := 0, writes := [] }⟩

/-- Claim C1: `batch_invoke` over N inputs computes `metadata()` exactly
once and returns `{"predictions": [...]}` with exactly N predictions in
input order; `predictions[i].result` is `result(inputs[i])` via the default
sequential `batch_result`, and every prediction carries the same metadata
with one shared timestamp. -/
theorem batch_invoke_spec (p : ModelPredictor ι ρ τ β) (f : ι → ρ)
    (hres : p.result = fun x => Except.ok (f x))
    (hrec : pyTruthy p.env.record_invokes = false ∨ ∃ u, p.env.s3 = some u)
    (data : List ι) (s : PState β) :
    ∃ s2, p.batch_invoke data s =
        (.ok { predictions := data.map (fun x =>
            { metadata := { model_version := p.env.model_version,
                            ml2p_version := p.ml2p_version,
                            timestamp := p.now s.clock },
              result := f x }) }, s2) ∧
      s2.metadataCalls = s.metadataCalls + 1 := by
  have hbr := batch_result_map p f hres data
  rcases hrec with hrec | ⟨u, hs3⟩
  · refine ⟨{ s with clock := s.clock + 1, metadataCalls := s.metadataCalls + 1 },
      ?_, rfl⟩
    simp [ModelPredictor.batch_invoke, ModelPredictor.metadata,
          ModelPredictor.utcnow, hbr, hrec, List.map_map, Function.comp]
  · by_cases hrec2 : pyTruthy p.env.record_invokes = true
    · obtain ⟨s2, h2, hm⟩ := recordAll_ok p u hs3
        (data.zip ((data.map f).map (fun r => Prediction.mk
          { model_version := p.env.model_version,
            ml2p_version := p.ml2p_version,
            timestamp := p.now s.clock } r)))
        { s with clock := s.clock + 1, metadataCalls := s.metadataCalls + 1 }
      refine ⟨s2, ?_, by simpa using hm⟩
      simp only [ModelPredictor.batch_invoke, ModelPredictor.metadata,
          ModelPredictor.utcnow, hbr, hrec2, if_true]
      rw [h2]
      simp [List.map_map, Function.comp]
    · have hrec3 : pyTruthy p.env.record_invokes = false := by
        revert hrec2; cases pyTruthy p.env.record_invokes <;> simp
      refine ⟨{ s with clock := s.clock + 1, metadataCalls := s.metadataCalls + 1 },
        ?_, rfl⟩
      simp [ModelPredictor.batch_invoke, ModelPredictor.metadata,
            ModelPredictor.utcnow, hbr, hrec3, List.map_map, Function.comp]

/-- Instantiation of C1: the concrete predictor batch-invoked on three
inputs yields three predictions in order sharing one timestamp, with the
metadata-call counter advanced exactly once. -/
theorem batch_invoke_witness :
    pyTruthy predNoRecord.env.record_invokes = false ∧
    (∃ s2, predNoRecord.batch_invoke [3, 4, 5]
        { clock := 0, uuidCount := 0, metadataCalls := 0, writes := [] } =
        (.ok { predictions := [3, 4, 5].map (fun x =>
            { metadata := { model_version := some "test-model-1.2.3",
                            ml2p_version := "2022.3.1",
                            timestamp := 0 },
              result := x + 1 }) }, s2) ∧
      s2.metadataCalls = 1) :=
  ⟨rfl, batch_invoke_spec predNoRecord (fun x => x + 1) rfl (Or.inl rfl) [3, 4, 5]
    { clock := 0, uuidCount := 0, metadataCalls := 0, writes := [] }⟩

/-! ### Lemmas about the slash-stripping primitives -/

/-- Unfolding equation for `rstripSlash` on a cons cell. -/
theorem rstripSlash_cons (c : Char) (t : List Char) :
    rstripSlash (c :: t) =
      match rstripSlash t with
      | [] => if isSlash c then [] else [c]
      | r => c :: r := rfl

/-- The result of `lstrip("/")` never starts with a slash. -/
theorem lstripSlash_head (l : List Char) : (lstripSlash l).head? ≠ some '/' := by
  induction l with
  | nil => simp [lstripSlash]
  | cons c t ih =>
    by_cases h : isSlash c = true
    · simpa [lstripSlash, List.dropWhile_cons_of_pos h] using ih
    · have hc : c ≠ '/' := by simpa [isSlash] using h
      simp [lstripSlash, List.dropWhile_cons_of_neg h, hc]

/-- The operation `lstrip("/")` leaves a list alone when it does not start with a slash. -/
theorem lstripSlash_of_head {l : List Char} (h : l.head? ≠ some '/') :
    lstripSlash l = l := by
  cases l with
  | nil => rfl
  | cons c t =>
    have hc : c ≠ '/' := by simpa using h
    have : ¬ isSlash c = true := by simp [isSlash, hc]
    simp [lstripSlash, List.dropWhile_cons_of_neg this]

/-- The operation `lstrip("/")` is idempotent. -/
theorem lstripSlash_idem (l : List Char) :
    lstripSlash (lstripSlash l) = lstripSlash l :=
  lstripSlash_of_head (lstripSlash_head l)

/-- The operation `lstrip("/")` absorbs one leading slash. -/
theorem lstripSlash_cons_slash (l : List Char) :
    lstripSlash ('/' :: l) = lstripSlash l := by
  simp [lstripSlash, List.dropWhile_cons_of_pos, isSlash]

/-- Members of the `lstrip("/")` result are members of the input. -/
theorem mem_lstripSlash {c : Char} {l : List Char} (h : c ∈ lstripSlash l) :
    c ∈ l :=
  List.dropWhile_subset isSlash h

/-- The result of `rstrip("/")` never ends with a slash. -/
theorem rstripSlash_getLast (l : List Char) :
    (rstripSlash l).getLast? ≠ some '/' := by
  induction l with
  | nil => simp [rstripSlash]
  | cons c t ih =>
    rw [rstripSlash_cons]
    cases hr : rstripSlash t with
    | nil =>
      by_cases h : isSlash c = true
      · simp [h]
      · have hc : c ≠ '/' := by simpa [isSlash] using h
        simp [h, hc]
    | cons r rs =>
      rw [hr] at ih
      simpa [List.getLast?_cons_cons] using ih

/-- The operation `rstrip("/")` leaves a list alone when it does not end with a slash. -/
theorem rstripSlash_of_getLast : ∀ {l : List Char},
    l.getLast? ≠ some '/' → rstripSlash l = l := by
  intro l
  induction l with
  | nil => intro h; rfl
  | cons c t ih =>
    intro h
    cases t with
    | nil =>
      have hc : c ≠ '/' := by simpa using h
      simp [rstripSlash_cons, rstripSlash, isSlash, hc]
    | cons d ts =>
      have h2 : (d :: ts).getLast? ≠ some '/' := by
        simpa [List.getLast?_cons_cons] using h
      rw [rstripSlash_cons, ih h2]

/-- The operation `rstrip("/")` absorbs one trailing slash. -/
theorem rstripSlash_append_slash (l : List Char) :
    rstripSlash (l ++ ['/']) = rstripSlash l := by
  induction l with
  | nil => simp [rstripSlash, isSlash]
  | cons c t ih => rw [List.cons_append, rstripSlash_cons, rstripSlash_cons, ih]

/-- The operation `rstrip("/")` returns the empty list or keeps the original head. -/
theorem rstripSlash_head (c : Char) (t : List Char) :
    rstripSlash (c :: t) = [] ∨ (rstripSlash (c :: t)).head? = some c := by
  rw [rstripSlash_cons]
  cases rstripSlash t with
  | nil =>
    by_cases h : isSlash c = true
    · exact Or.inl (by simp [h])
    · exact Or.inr (by simp [h])
  | cons r rs => exact Or.inr rfl

/-- Members of the `rstrip("/")` result are members of the input. -/
theorem mem_rstripSlash : ∀ {l : List Char} {c : Char},
    c ∈ rstripSlash l → c ∈ l := by
  intro l
  induction l with
  | nil => intro c h; simp [rstripSlash] at h
  | cons a t ih =>
    intro c h
    rw [rstripSlash_cons] at h
    revert h
    cases hr : rstripSlash t with
    | nil =>
      intro h
      by_cases ha : isSlash a = true
      · simp [ha] at h
      · simp [ha] at h
        simp [h]
    | cons r rs =>
      intro h
      rcases List.mem_cons.mp h with rfl | hm
      · exact List.mem_cons_self _ _
      · exact List.mem_cons_of_mem _ (ih (hr ▸ hm))

/-- The result of `strip("/")` never starts with a slash. -/
theorem stripSlash_head (l : List Char) : (stripSlash l).head? ≠ some '/' := by
  unfold stripSlash
  cases hl : lstripSlash l with
  | nil => simp [rstripSlash]
  | cons c t =>
    have hc : c ≠ '/' := by
      have := lstripSlash_head l
      rw [hl] at this
      simpa using this
    rcases rstripSlash_head c t with h | h
    · simp [h]
    · rw [h]
      simp [hc]

/-- The result of `strip("/")` never ends with a slash. -/
theorem stripSlash_getLast (l : List Char) :
    (stripSlash l).getLast? ≠ some '/' :=
  rstripSlash_getLast (lstripSlash l)

/-- Members of the `strip("/")` result are members of the input. -/
theorem mem_stripSlash {c : Char} {l : List Char} (h : c ∈ stripSlash l) :
    c ∈ l :=
  mem_lstripSlash (mem_rstripSlash h)

/-- Evaluation of `S3URL.path` for a resolver whose stored root is already stripped:
an empty root yields the stripped suffix, a non-empty root is joined to
the stripped suffix with a single slash. -/
theorem path_eq_of_root_head (u : S3URL) (h : u.s3root.head? ≠ some '/')
    (suffix : List Char) :
    u.path suffix =
      if u.s3root = [] then lstripSlash suffix
      else u.s3root ++ '/' :: lstripSlash suffix := by
  cases hr : u.s3root with
  | nil =>
    rw [S3URL.path, hr, if_pos rfl, List.nil_append, lstripSlash_cons_slash,
        lstripSlash_idem]
  | cons c t =>
    have hc : c ≠ '/' := by
      rw [hr] at h
      simpa using h
    rw [S3URL.path, hr, if_neg (by simp), List.cons_append]
    exact lstripSlash_of_head (by simp [hc])

/-! ### Claims about S3URL.path -/

/-- Claim C6: for every URL string used to construct the resolver and every
suffix, `path(suffix)` never begins with a slash; when the stored prefix is
empty the result is just the suffix stripped of leading slashes, and when
it is non-empty the result is the prefix and the stripped suffix joined by
a single slash, where the prefix does not end with a slash and the stripped
suffix does not begin with one, so no double slash arises at the join
point. -/
theorem s3url_path_normalized (url : String) (suffix : List Char) :
    ((S3URL.ofString url).path suffix).head? ≠ some '/' ∧
    ((S3URL.ofString url).s3root = [] →
      (S3URL.ofString url).path suffix = lstripSlash suffix) ∧
    ((S3URL.ofString url).s3root ≠ [] →
      (S3URL.ofString url).path suffix =
        (S3URL.ofString url).s3root ++ '/' :: lstripSlash suffix ∧
      (S3URL.ofString url).s3root.getLast? ≠ some '/' ∧
      (lstripSlash suffix).head? ≠ some '/') := by
  have hroot : (S3URL.ofString url).s3root.head? ≠ some '/' := by
    unfold S3URL.ofString
    exact stripSlash_head _
  have hlast : (S3URL.ofString url).s3root.getLast? ≠ some '/' := by
    unfold S3URL.ofString
    exact stripSlash_getLast _
  have hp := path_eq_of_root_head (S3URL.ofString url) hroot suffix
  refine ⟨?_, ?_, ?_⟩
  · rw [hp]
    by_cases h : (S3URL.ofString url).s3root = []
    · simpa [h] using lstripSlash_head suffix
    · rw [if_neg h]
      cases hr : (S3URL.ofString url).s3root with
      | nil => exact absurd hr h
      | cons c t =>
        have hc : c ≠ '/' := by
          rw [hr] at hroot
          simpa using hroot
        simp [hc]
  · intro h
    rw [hp, if_pos h]
  · intro h
    exact ⟨by rw [hp, if_neg h], hlast, lstripSlash_head suffix⟩

/-- Instantiation of C6 at a concrete URL with a trailing slash and a
suffix with a leading slash. -/
theorem s3url_path_normalized_witness :
    ((S3URL.ofString "s3://bucket/models/").path ('/' :: String.data "foo")).head? ≠
      some '/' ∧
    ((S3URL.ofString "s3://bucket/models/").s3root = [] →
      (S3URL.ofString "s3://bucket/models/").path ('/' :: String.data "foo") =
        lstripSlash ('/' :: String.data "foo")) ∧
    ((S3URL.ofString "s3://bucket/models/").s3root ≠ [] →
      (S3URL.ofString "s3://bucket/models/").path ('/' :: String.data "foo") =
        (S3URL.ofString "s3://bucket/models/").s3root ++ '/' ::
          lstripSlash ('/' :: String.data "foo") ∧
      (S3URL.ofString "s3://bucket/models/").s3root.getLast? ≠ some '/' ∧
      (lstripSlash ('/' :: String.data "foo")).head? ≠ some '/') :=
  s3url_path_normalized "s3://bucket/models/" ('/' :: String.data "foo")

/-! ### Lemmas about the urlparse model -/

/-- Every character of a valid scheme differs from the colon. -/
theorem validScheme_notColon (s : List Char) (h : validScheme s = true) :
    ∀ c ∈ s, notColon c = true := by
  cases s with
  | nil => exact absurd h (by simp [validScheme])
  | cons a t =>
    have h2 : a.isAlpha = true ∧ t.all isSchemeChar = true := by
      simpa [validScheme, Bool.and_eq_true] using h
    intro c hc
    rcases List.mem_cons.mp hc with rfl | hct
    · have : c ≠ ':' := by
        intro he
        rw [he] at h2
        exact absurd h2.1 (by decide)
      simp [notColon, this]
    · have hsc : isSchemeChar c = true := by
        simpa using (List.all_eq_true.mp h2.2) c hct
      have : c ≠ ':' := by
        intro he
        rw [he] at hsc
        exact absurd hsc (by decide)
      simp [notColon, this]

/-- Removing a valid scheme from `scheme ++ ":" ++ R` yields `R`. -/
theorem schemeRest_eq (scheme R : List Char) (hs : validScheme scheme = true) :
    schemeRest (scheme ++ ':' :: R) = R := by
  have hcolon := validScheme_notColon scheme hs
  have hd : (scheme ++ ':' :: R).dropWhile notColon = ':' :: R := by
    rw [List.dropWhile_append_of_pos hcolon,
        List.dropWhile_cons_of_neg (by decide)]
  have ht : (scheme ++ ':' :: R).takeWhile notColon = scheme := by
    rw [List.takeWhile_append_of_pos hcolon,
        List.takeWhile_cons_of_neg (by decide), List.append_nil]
  simp only [schemeRest, hd, ht, hs, if_true]

/-- Parsing `scheme://netloc/rest2` returns netloc and the path
`/rest2-up-to-query-or-fragment` when the scheme is valid and the netloc
contains no slash, question mark or hash character. -/
theorem urlparse_eq (scheme netloc rest2 : List Char)
    (hs : validScheme scheme = true)
    (hn : ∀ c ∈ netloc, notNetlocEnd c = true) :
    urlparseNetlocPath (scheme ++ ':' :: '/' :: '/' :: (netloc ++ '/' :: rest2)) =
      (netloc, '/' :: rest2.takeWhile notQueryStart) := by
  have hsr := schemeRest_eq scheme ('/' :: '/' :: (netloc ++ '/' :: rest2)) hs
  have h1 : (netloc ++ '/' :: rest2).takeWhile notNetlocEnd = netloc := by
    rw [List.takeWhile_append_of_pos hn,
        List.takeWhile_cons_of_neg (by decide), List.append_nil]
  have h2 : (netloc ++ '/' :: rest2).dropWhile notNetlocEnd = '/' :: rest2 := by
    rw [List.dropWhile_append_of_pos hn,
        List.dropWhile_cons_of_neg (by decide)]
  simp only [urlparseNetlocPath, hsr, h1, h2,
             List.takeWhile_cons_of_pos (by decide : notQueryStart '/' = true)]

/-- The netloc component produced by the urlparse model contains no slash,
question mark or hash character. -/
theorem urlparse_netloc_chars (url : List Char) :
    ∀ c ∈ (urlparseNetlocPath url).1, notNetlocEnd c = true := by
  unfold urlparseNetlocPath
  split
  · intro c hc
    exact List.mem_takeWhile_imp hc
  · intro c hc
    simp at hc

/-- The path component produced by the urlparse model contains no question
mark or hash character. -/
theorem urlparse_path_chars (url : List Char) :
    ∀ c ∈ (urlparseNetlocPath url).2, notQueryStart c = true := by
  unfold urlparseNetlocPath
  split
  · intro c hc
    exact List.mem_takeWhile_imp hc
  · intro c hc
    exact List.mem_takeWhile_imp hc

/-- The operation `takeWhile` keeps a list whose members all satisfy the predicate. -/
theorem takeWhile_all {p : Char → Bool} : ∀ {l : List Char},
    (∀ c ∈ l, p c = true) → l.takeWhile p = l := by
  intro l
  induction l with
  | nil => intro h; rfl
  | cons c t ih =>
    intro h
    rw [List.takeWhile_cons_of_pos (h c (List.mem_cons_self c t)),
        ih (fun d hd => h d (List.mem_cons_of_mem c hd))]

/-! ### Claims about S3URL.bucket and the url round trip -/

/-- Claim C7: for a URL of the form `scheme://host/path` (valid scheme,
host free of slash, question mark and hash characters), `bucket()` returns
exactly the host component. -/
theorem s3url_bucket_host (scheme host rest : List Char)
    (hs : validScheme scheme = true)
    (hh : ∀ c ∈ host, notNetlocEnd c = true) :
    (S3URL.ofString (String.mk
      (scheme ++ ':' :: '/' :: '/' :: (host ++ '/' :: rest)))).bucket = host := by
  show (urlparseNetlocPath
    (scheme ++ ':' :: '/' :: '/' :: (host ++ '/' :: rest))).1 = host
  rw [urlparse_eq scheme host rest hs hh]

/-- Instantiation of C7 at the concrete URL s3://my-bucket/models. -/
theorem s3url_bucket_host_witness :
    validScheme (String.data "s3") = true ∧
    (∀ c ∈ String.data "my-bucket", notNetlocEnd c = true) ∧
    (S3URL.ofString (String.mk (String.data "s3" ++ ':' :: '/' :: '/' ::
      (String.data "my-bucket" ++ '/' :: String.data "models")))).bucket =
      String.data "my-bucket" :=
  ⟨by decide, by decide,
    s3url_bucket_host (String.data "s3") (String.data "my-bucket")
      (String.data "models") (by decide) (by decide)⟩

/-- Re-parsing `S3URL(...).url("")` recovers the same stored state, for any
netloc without slash, question mark or hash characters and any stored root
that contains no question mark or hash and neither starts nor ends with a
slash — exactly the invariants established by construction. -/
theorem ofString_mk_url (n r0 : List Char)
    (hn : ∀ c ∈ n, notNetlocEnd c = true)
    (hq : ∀ c ∈ r0, notQueryStart c = true)
    (hhead : r0.head? ≠ some '/')
    (hlast : r0.getLast? ≠ some '/') :
    S3URL.ofString (S3URL.url ⟨n, r0⟩ []) = ⟨n, r0⟩ := by
  have hs2 : validScheme (String.data "s3") = true := by decide
  cases hr : r0 with
  | nil =>
    have hp0 : S3URL.path ⟨n, ([] : List Char)⟩ [] = [] := rfl
    have hdata : (S3URL.url ⟨n, ([] : List Char)⟩ []).data =
        String.data "s3" ++ ':' :: '/' :: '/' :: (n ++ '/' :: ([] : List Char)) := by
      simp [S3URL.url, hp0]
    have hparse := urlparse_eq (String.data "s3") n [] hs2 hn
    show S3URL.ofString (S3URL.url ⟨n, ([] : List Char)⟩ []) = ⟨n, []⟩
    unfold S3URL.ofString
    rw [hdata, hparse]
    simp [stripSlash, lstripSlash, rstripSlash, isSlash]
  | cons c t =>
    have hc : c ≠ '/' := by
      rw [hr] at hhead
      simpa using hhead
    have hp0 : S3URL.path ⟨n, c :: t⟩ [] = (c :: t) ++ ['/'] := by
      show lstripSlash ((c :: t) ++ '/' :: lstripSlash []) = (c :: t) ++ ['/']
      exact lstripSlash_of_head (by simp [hc])
    have hdata : (S3URL.url ⟨n, c :: t⟩ []).data =
        String.data "s3" ++ ':' :: '/' :: '/' :: (n ++ '/' :: ((c :: t) ++ ['/'])) := by
      simp [S3URL.url, hp0]
    have hqc : ∀ x ∈ (c :: t) ++ ['/'], notQueryStart x = true := by
      intro x hx
      rcases List.mem_append.mp hx with hx | hx
      · exact hq x (hr ▸ hx)
      · simp at hx
        rw [hx]
        decide
    have hparse := urlparse_eq (String.data "s3") n ((c :: t) ++ ['/']) hs2 hn
    show S3URL.ofString (S3URL.url ⟨n, c :: t⟩ []) = ⟨n, c :: t⟩
    unfold S3URL.ofString
    rw [hdata, hparse, takeWhile_all hqc]
    have hstrip : stripSlash ('/' :: ((c :: t) ++ ['/'])) = c :: t := by
      show rstripSlash (lstripSlash ('/' :: ((c :: t) ++ ['/']))) = c :: t
      rw [lstripSlash_cons_slash, lstripSlash_of_head (by simp [hc]),
          rstripSlash_append_slash, rstripSlash_of_getLast (hr ▸ hlast)]
    have hstrip2 : stripSlash ('/' :: c :: (t ++ ['/'])) = c :: t := by
      simpa using hstrip
    simp [hstrip2]

/-- Claim C10: constructing a new S3URL from `u.url("")` yields a resolver
with the same `bucket()` and the same `path(s)` for every suffix `s`. -/
theorem s3url_url_roundtrip (url : String) (s : List Char) :
    (S3URL.ofString ((S3URL.ofString url).url [])).bucket =
      (S3URL.ofString url).bucket ∧
    (S3URL.ofString ((S3URL.ofString url).url [])).path s =
      (S3URL.ofString url).path s := by
  have heq : S3URL.ofString ((S3URL.ofString url).url []) = S3URL.ofString url :=
    ofString_mk_url (urlparseNetlocPath url.data).1
      (stripSlash (urlparseNetlocPath url.data).2)
      (urlparse_netloc_chars url.data)
      (fun c hc => urlparse_path_chars url.data c (mem_stripSlash hc))
      (stripSlash_head _) (stripSlash_getLast _)
  rw [heq]
  exact ⟨rfl, rfl⟩

/-- Instantiation of C10 at a concrete URL and suffix. -/
theorem s3url_url_roundtrip_witness :
    (S3URL.ofString ((S3URL.ofString "s3://my-bucket/models/sub/").url [])).bucket =
      (S3URL.ofString "s3://my-bucket/models/sub/").bucket ∧
    (S3URL.ofString ((S3URL.ofString "s3://my-bucket/models/sub/").url [])).path
        (String.data "/datasets/one.json") =
      (S3URL.ofString "s3://my-bucket/models/sub/").path
        (String.data "/datasets/one.json") :=
  s3url_url_roundtrip "s3://my-bucket/models/sub/" (String.data "/datasets/one.json")

end ML2P
